import Mathlib

/-!
Verification development for the `auras` module (src/scripts/auras.mjs).

The module hooks token updates in a virtual-tabletop engine and reconciles
aura-derived active effects.  The core is the `updateToken` handler: guards
(initiating user, active GM, actor presence, movement update), a
source-perspective pass (Pass A: per source aura, pre/post proximity-set diff),
and a target-perspective pass (Pass B: scan all scene tokens' auras against the
moved token), dispatching mutation queries to the active GM.

Shallow embedding choices:
* JS numbers that the code only compares and multiplies are modelled as `Int`;
  a possibly-absent numeric field (e.g. `effect.system.distance`) is
  `Option Int`, with JS truthiness `truthyNum` (absent and 0 are falsy) and the
  JS `<` comparison `ltJS` (`undefined < d` is false, via NaN).
* JS object/reference identity between actor documents is modelled as
  structural equality; actor documents in a scene are determined by their data
  (in particular their unique `uuid`).
* The geometry helpers and movement predicate live in helpers.mjs, outside the
  sources; per the spec they are black boxes, so they are fields of the
  environment `Env` (`nearbyPre`/`nearbyPost` for the world before/after the
  awaited movement animation, `dist`, `finalMovementComplete`).
* Query dispatches (`activeGM.query(...)`) are collected into a result list
  `Result.queries` in dispatch order.  A JS exception (e.g. dereferencing a
  null actor) aborts the handler: `Result.crashed` is set and `queries` keeps
  only the queries dispatched before the throw.
* The module-level `seenWarning` latch is threaded as explicit state.
-/

namespace Auras

/-- The `system` sub-object of an effect document: `distance` is the aura
radius (possibly absent), `disposition` the aura's disposition filter,
`collisionTypes` the collision policy (opaque here). -/
structure EffectSystem where
  distance : Option Int
  disposition : Int
  collisionTypes : String
  deriving DecidableEq, Repr

/-- An active-effect document, with the fields `updateToken` reads:
`uuid`, `type`, `origin`, the `auras.originalType` flag, and `system`. -/
structure Effect where
  uuid : String
  type : String
  origin : Option String
  flagOriginalType : Option String
  system : EffectSystem
  deriving DecidableEq, Repr

/-- An actor document: `effects` is the embedded effects collection
(`actor.effects`, scanned for origin matches), `appliedEffects` the applied
effects (`actor.appliedEffects`, scanned for aura sources). -/
structure Actor where
  uuid : String
  effects : List Effect
  appliedEffects : List Effect
  deriving DecidableEq, Repr

/-- A token document: its (possibly missing) actor and its disposition code. -/
structure Token where
  actor : Option Actor
  disposition : Int
  deriving DecidableEq, Repr

/-- The differential update object of the `updateToken` hook; only the three
fields the guard reads.  `none` = field absent from the update. -/
structure Updates where
  x : Option Int
  y : Option Int
  elevation : Option Int
  deriving DecidableEq, Repr

/-- JS truthiness of a possibly-absent number: absent and 0 are falsy. -/
def truthyNum : Option Int → Bool
  | none => false
  | some v => v != 0

/-- JS `<` on a possibly-absent left operand: `undefined < d` is false
(NaN comparison), `r < d` otherwise. -/
def ltJS : Option Int → Int → Bool
  | none, _ => false
  | some r, d => decide (r < d)

/-- The queries the handler can dispatch to the active GM, with their
payloads.  `deleteEffects` / `applyEffect` payload entries are
possibly-undefined uuids (JS optional chaining). -/
inductive Query where
  | deleteEffects (effectUuids : List (Option String))
  | applyEffect (effectData : Effect) (actorUuids : List (Option String))
  | deleteAuraEffects (actorUuid : String) (effectUuids : List String)
  | applyAuraEffects (actorUuid : String) (effectUuids : List String)
  deriving DecidableEq, Repr

/-- The environment of one handler invocation: session facts and the
black-box helpers (helpers.mjs is outside the sources; the spec treats the
distance and radius queries as given services).  `nearbyPre` is the world's
`getNearbyTokens` before the awaited movement animation, `nearbyPost` after;
`dist` is `getTokenToTokenDistance` after the await; `sceneTokens` is
`token.parent.tokens` as seen by Pass B. -/
structure Env where
  localUserId : String
  activeGM : Bool
  nearbyPre : Token → Option Int → Int → String → List Token
  nearbyPost : Token → Option Int → Int → String → List Token
  dist : Token → Token → String → Int
  finalMovementComplete : Bool
  sceneTokens : List Token

/-- The observable outcome of one handler invocation: number of warnings
surfaced, the new `seenWarning` latch, whether execution proceeded past the
guards into the reconciliation body, the dispatched queries in order, and
whether a JS exception aborted the run. -/
structure Result where
  warnings : Nat
  seenWarning : Bool
  proceeded : Bool
  queries : List Query
  crashed : Bool
  deriving DecidableEq, Repr

/-- JS `new Set(list)`: deduplication keeping the first occurrence of each
element, in insertion order. -/
def jsSet {α : Type} [DecidableEq α] (l : List α) : List α :=
  l.foldl (fun acc a => if a ∈ acc then acc else acc ++ [a]) []

/-- One proximity snapshot for one aura effect:
`new Set(getNearbyTokens(token, radius, {disposition, collisionTypes}).map(t => t.actor))`. -/
def rangeActors (nearby : Token → Option Int → Int → String → List Token)
    (token : Token) (e : Effect) : List (Option Actor) :=
  jsSet ((nearby token e.system.distance e.system.disposition
    e.system.collisionTypes).map (·.actor))

/-- The `preMoveRanges` object: per effect uuid, the pre-move proximity
snapshot, skipping falsy radii (`if (!radius) continue`).  Modelled as a
lookup function with J-S object last-write-wins semantics. -/
def preMoveRanges (nearby : Token → Option Int → Int → String → List Token)
    (token : Token) : List Effect → String → Option (List (Option Actor))
  | [] => fun _ => none
  | e :: rest => fun k =>
    match preMoveRanges nearby token rest k with
    | some v => some v
    | none =>
      if truthyNum e.system.distance && (k == e.uuid) then
        some (rangeActors nearby token e)
      else none

/-- `effect.toObject()` merged with `{origin: effect.uuid,
type: effect.getFlag("auras", "originalType") ?? "base"}`. -/
def effectDataOf (effect : Effect) : Effect :=
  { effect with origin := some effect.uuid,
                type := effect.flagOriginalType.getD "base" }

/-- `actor.effects.find(e => e.origin === effect.uuid)`: locate a derived
effect on `actor` by matching `origin`. -/
def findOriginEffect (actor : Actor) (originUuid : String) : Option Effect :=
  actor.effects.find? (fun e => e.origin == some originUuid)

/-- Pass A's `toAddTo` before the uuid projection:
`postMoveRange.filter(a => (a !== token.actor) && !a?.effects.find(e => e.origin === effect.uuid))`. -/
def toAddToList (tokenActor : Actor) (originUuid : String)
    (postMoveRange : List (Option Actor)) : List (Option Actor) :=
  postMoveRange.filter (fun a =>
    (a != some tokenActor) &&
      (match a with
       | none => true
       | some act => (findOriginEffect act originUuid).isNone))

/-- Pass A, one source aura effect (auras.mjs lines 45-60): skip falsy radius;
look up the pre-move snapshot; take the post-move snapshot; dispatch
`deleteEffects` for the pre-minus-post diff; and, only when the movement's
final segment is complete, dispatch `applyEffect` for `toAddTo`.
Second component: a JS exception was thrown (missing `preMoveRanges` entry,
or a null actor dereference in the diff's origin scan). -/
def passAEffect (nearby : Token → Option Int → Int → String → List Token)
    (final : Bool) (token : Token) (tokenActor : Actor)
    (pre : String → Option (List (Option Actor))) (effect : Effect) :
    List Query × Bool :=
  if truthyNum effect.system.distance = false then ([], false)
  else
    match pre effect.uuid with
    | none => ([], true)
    | some preMoveRange =>
      let postMoveRange := rangeActors nearby token effect
      let diffList := preMoveRange.filter (fun a => !(postMoveRange.contains a))
      if diffList.contains none then ([], true)
      else
        let toDelete : List (Option String) :=
          diffList.map (fun a =>
            a.bind (fun act => (findOriginEffect act effect.uuid).map (·.uuid)))
        ([Query.deleteEffects toDelete] ++
          (if final then
            [Query.applyEffect (effectDataOf effect)
              ((toAddToList tokenActor effect.uuid postMoveRange).map
                (fun a => a.map (·.uuid)))]
          else []), false)

/-- Pass A over the list of source aura effects, stopping at the first
thrown exception. -/
def passA (nearby : Token → Option Int → Int → String → List Token)
    (final : Bool) (token : Token) (tokenActor : Actor)
    (pre : String → Option (List (Option Actor))) :
    List Effect → List Query × Bool
  | [] => ([], false)
  | e :: rest =>
    let r := passAEffect nearby final token tokenActor pre e
    if r.2 then (r.1, true)
    else
      let rRest := passA nearby final token tokenActor pre rest
      (r.1 ++ rRest.1, rRest.2)

/-- The effective disposition of a pair of tokens (auras.mjs line 67):
`token.disposition * sourceToken.disposition`. -/
def effectiveDisposition (token sourceToken : Token) : Int :=
  token.disposition * sourceToken.disposition

/-- Pass B's aura filter (auras.mjs lines 68-70): aura-typed, and
`disposition` either 0 or exactly the effective disposition. -/
def auraDispositionFilter (disposition : Int) (e : Effect) : Bool :=
  (e.type == "auras.aura") &&
    ((e.system.disposition == 0) || (e.system.disposition == disposition))

/-- Pass B's per-aura classification (auras.mjs lines 74-76): the aura goes to
the removal list when `currEffect.system.distance < distance`, else to the
addition list. -/
def classifyAura (distance : Int) (p : List Effect × List Effect)
    (currEffect : Effect) : List Effect × List Effect :=
  if ltJS currEffect.system.distance distance then (p.1 ++ [currEffect], p.2)
  else (p.1, p.2 ++ [currEffect])

/-- Pass B, one scene token (auras.mjs lines 63-85): skip tokens of the moving
actor; otherwise read the source token's actor (a missing actor makes the JS
dereference throw: `none`), filter its auras by disposition, and classify each
by its computed distance. -/
def passBToken (dist : Token → Token → String → Int) (token : Token)
    (tokenActor : Actor) (acc : List Effect × List Effect)
    (sourceToken : Token) : Option (List Effect × List Effect) :=
  if sourceToken.actor == some tokenActor then some acc
  else
    match sourceToken.actor with
    | none => none
    | some srcActor =>
      let auraEffects := srcActor.appliedEffects.filter
        (auraDispositionFilter (effectiveDisposition token sourceToken))
      if auraEffects.isEmpty then some acc
      else
        some (auraEffects.foldl
          (fun p currEffect =>
            classifyAura (dist token sourceToken currEffect.system.collisionTypes)
              p currEffect)
          acc)

/-- Pass B's reduce over `token.parent.tokens`, stopping at a thrown
exception. -/
def passBFold (dist : Token → Token → String → Int) (token : Token)
    (tokenActor : Actor) :
    List Token → List Effect × List Effect → Option (List Effect × List Effect)
  | [], acc => some acc
  | s :: rest, acc =>
    match passBToken dist token tokenActor acc s with
    | none => none
    | some acc2 => passBFold dist token tokenActor rest acc2

/-- Pass B's query dispatches (auras.mjs lines 88-93): a `deleteAuraEffects`
batch when the removal list is nonempty, then an `applyAuraEffects` batch when
the addition list is nonempty and the final movement segment is complete. -/
def passBQueries (actorUuid : String) (final : Bool)
    (p : List Effect × List Effect) : List Query :=
  (if p.1.isEmpty then [] else
    [Query.deleteAuraEffects actorUuid (p.1.map (·.uuid))]) ++
  (if p.2.isEmpty = false ∧ final then
    [Query.applyAuraEffects actorUuid (p.2.map (·.uuid))] else [])

/-- The reconciliation body of the handler (auras.mjs lines 31-93), run once
all guards have passed: the source-perspective Pass A over the actor's aura
source effects, then the target-perspective Pass B over the scene.  Returns
the dispatched queries in order and whether a JS exception aborted the run. -/
def reconcile (env : Env) (token : Token) (tokenActor : Actor) :
    List Query × Bool :=
  let sourceEffects :=
    tokenActor.appliedEffects.filter (fun e => e.type == "auras.aura")
  let pre := preMoveRanges env.nearbyPre token sourceEffects
  let resA := passA env.nearbyPost env.finalMovementComplete token
    tokenActor pre sourceEffects
  if resA.2 then (resA.1, true)
  else
    match passBFold env.dist token tokenActor env.sceneTokens ([], []) with
    | none => (resA.1, true)
    | some p =>
      (resA.1 ++ passBQueries tokenActor.uuid env.finalMovementComplete p,
       false)

/-- The `updateToken` hook handler (auras.mjs lines 18-94), as a function from
the invocation environment, the `seenWarning` latch, and the hook arguments to
the observable `Result`. -/
def updateToken (env : Env) (seenWarning : Bool) (token : Token)
    (updates : Updates) (userId : String) : Result :=
  if env.localUserId ≠ userId then ⟨0, seenWarning, false, [], false⟩
  else if env.activeGM = false then
    if seenWarning = false then ⟨1, true, false, [], false⟩
    else ⟨0, seenWarning, false, [], false⟩
  else
    match token.actor with
    | none => ⟨0, seenWarning, false, [], false⟩
    | some tokenActor =>
      if (truthyNum updates.x || truthyNum updates.y ||
          truthyNum updates.elevation) = false then
        ⟨0, seenWarning, false, [], false⟩
      else
        let r := reconcile env token tokenActor
        ⟨0, seenWarning, true, r.1, r.2⟩

/-- One invocation of the hook handler. -/
structure Call where
  token : Token
  updates : Updates
  userId : String

/-- A sequence of handler invocations threading the `seenWarning` latch. -/
def runSeq (env : Env) (seen : Bool) : List Call → Bool × List Result
  | [] => (seen, [])
  | c :: rest =>
    let r := updateToken env seen c.token c.updates c.userId
    let res := runSeq env r.seenWarning rest
    (res.1, r :: res.2)

/-- Replace the environment's final-movement-segment flag. -/
def setFinal (env : Env) (b : Bool) : Env := { env with finalMovementComplete := b }

/-- Removal queries (`deleteEffects`, `deleteAuraEffects`), as opposed to
addition queries (`applyEffect`, `applyAuraEffects`). -/
def isRemovalQuery : Query → Bool
  | Query.deleteEffects _ => true
  | Query.deleteAuraEffects _ _ => true
  | Query.applyEffect _ _ => false
  | Query.applyAuraEffects _ _ => false

/-- A query whose Pass-A payload is empty: a `deleteEffects` with no effect
uuids or an `applyEffect` with no actor uuids; Pass-B batch queries are not
constrained. -/
def hasEmptyPassAPayload : Query → Bool
  | Query.deleteEffects l => l.isEmpty
  | Query.applyEffect _ l => l.isEmpty
  | Query.deleteAuraEffects _ _ => true
  | Query.applyAuraEffects _ _ => true

/-- The number of effects on `actor.effects` whose `origin` matches the given
source-effect uuid. -/
def countOrigin (actor : Actor) (originUuid : String) : Nat :=
  (actor.effects.filter (fun e => e.origin == some originUuid)).length

/-- Modelled from the spec: the `applyAuraEffects` mutation primitive of
src/scripts/queries.mjs, which is not among the sources.  Per the spec the
effect application primitives are idempotent: each requested source aura
effect is instantiated onto the target actor as a derived copy (with `origin`
set to the source effect's uuid) unless the actor already holds a derived
effect found by matching `origin`.  The fresh document id of the created copy
is immaterial here; the copy keeps the source's uuid field. -/
def applyAuraEffectsPrimitive (actor : Actor) (srcs : List Effect) : Actor :=
  srcs.foldl
    (fun act src =>
      if (findOriginEffect act src.uuid).isSome then act
      else { act with effects := act.effects ++ [effectDataOf src] })
    actor

/-- Modelled from the spec: the expected warning pattern of the no-authority
scenario, restricted to invocations initiated by the local participant — the
first such invocation (with the latch unset) surfaces exactly one warning,
every other invocation surfaces none. -/
def specWarningPattern (localId : String) : Bool → List Call → List Nat
  | _, [] => []
  | seen, c :: rest =>
    if c.userId == localId then
      (if seen then 0 else 1) :: specWarningPattern localId true rest
    else 0 :: specWarningPattern localId seen rest

/-- Sample actor with no effects. -/
def actA : Actor := ⟨"Actor.A", [], []⟩

/-- Sample token for `actA`, friendly disposition. -/
def tokA : Token := ⟨some actA, 1⟩

/-- Sample aura source effect with radius 1. -/
def effSrc : Effect :=
  ⟨"Effect.S", "auras.aura", none, none, ⟨some 1, 0, "move"⟩⟩

/-- Sample actor carrying `effSrc` as an applied aura source effect. -/
def actS : Actor := ⟨"Actor.S", [], [effSrc]⟩

/-- Sample token for `actS`, friendly disposition. -/
def tokS : Token := ⟨some actS, 1⟩

/-- Sample zero-radius aura source effect (radius 0, affects anyone). -/
def effZ : Effect :=
  ⟨"Effect.Z", "auras.aura", none, none, ⟨some 0, 0, "move"⟩⟩

/-- Sample actor carrying the zero-radius aura `effZ`. -/
def actZ : Actor := ⟨"Actor.Z", [], [effZ]⟩

/-- Sample token for `actZ`, friendly disposition. -/
def tokZ : Token := ⟨some actZ, 1⟩

/-- Sample movement update: x changed to 1. -/
def updX : Updates := ⟨some 1, none, none⟩

/-- Sample movement update: x changed to 0 (a falsy coordinate). -/
def updX0 : Updates := ⟨some 0, none, none⟩

/-- Sample environment: local user "u", active GM present, nobody in range of
anything, all distances 0, final movement segment complete, scene holding only
`tokS`. -/
def envS : Env :=
  { localUserId := "u", activeGM := true,
    nearbyPre := fun _ _ _ _ => [], nearbyPost := fun _ _ _ _ => [],
    dist := fun _ _ _ => 0, finalMovementComplete := true,
    sceneTokens := [tokS] }

/-- Sample environment with no active GM. -/
def envNoGM : Env := { envS with activeGM := false }

/-- Sample environment whose distance helper returns 0 (tokens overlap). -/
def envD0 : Env := { envS with sceneTokens := [tokA, tokZ] }

/-- Sample environment whose distance helper returns 3. -/
def envD3 : Env := { envD0 with dist := fun _ _ _ => 3 }

/-- Sample token with no associated actor. -/
def tokNoActor : Token := ⟨none, 0⟩

/-- Sample actor already holding the derived copy of `effSrc` (origin
`"Effect.S"`). -/
def actD : Actor := ⟨"Actor.D", [effectDataOf effSrc], []⟩

/-- C7: Inclusive boundary — in Pass B's classification, an aura of radius R
evaluated at distance exactly R is placed in the addition list, and it is
placed in the removal list exactly when the distance strictly exceeds R. -/
theorem c7_inclusive_boundary (R : Int) (p : List Effect × List Effect)
    (e : Effect) (h : e.system.distance = some R) :
    classifyAura R p e = (p.1, p.2 ++ [e]) ∧
    (∀ d : Int, classifyAura d p e = (p.1 ++ [e], p.2) ↔ R < d) := by
  constructor
  · simp [classifyAura, ltJS, h]
  · intro d
    constructor
    · intro hd
      by_contra hlt
      simp only [classifyAura, ltJS, h, decide_eq_true_eq, hlt, if_false,
        decide_eq_false hlt, Bool.false_eq_true, if_neg] at hd
      have h1 := congrArg Prod.fst hd
      simp at h1
    · intro hlt
      simp [classifyAura, ltJS, h, hlt]

/-- Witness for `c7_inclusive_boundary` at the concrete radius-1 aura
`effSrc` and a pair of empty accumulators. -/
theorem c7_witness :
    effSrc.system.distance = some 1 ∧
    (classifyAura 1 ([], []) effSrc = (([] : List Effect), [] ++ [effSrc]) ∧
      (∀ d : Int, classifyAura d ([], []) effSrc =
        (([] : List Effect) ++ [effSrc], ([] : List Effect)) ↔ 1 < d)) :=
  ⟨rfl, c7_inclusive_boundary 1 ([], []) effSrc rfl⟩

/-- C8: Disposition matching — Pass B's effective disposition is the
arithmetic product of the two tokens' disposition codes, it is symmetric in
the two tokens, and an effect survives Pass B's aura filter exactly when it is
aura-typed and its own disposition field is 0 or equals that product. -/
theorem c8_disposition_matching (t s : Token) (e : Effect) :
    effectiveDisposition t s = t.disposition * s.disposition ∧
    effectiveDisposition t s = effectiveDisposition s t ∧
    (auraDispositionFilter (effectiveDisposition t s) e = true ↔
      e.type = "auras.aura" ∧
        (e.system.disposition = 0 ∨
          e.system.disposition = t.disposition * s.disposition)) := by
  refine ⟨rfl, by simp [effectiveDisposition, Int.mul_comm], ?_⟩
  simp [auraDispositionFilter, effectiveDisposition]

/-- C9: Self-exclusion — Pass A's `toAddTo` filter never keeps the moving
token's own actor, and Pass B skips any scene token belonging to the moving
token's actor outright, leaving its accumulator untouched. -/
theorem c9_self_exclusion :
    (∀ (tokenActor : Actor) (originUuid : String)
        (post : List (Option Actor)),
        some tokenActor ∉ toAddToList tokenActor originUuid post) ∧
    (∀ (dist : Token → Token → String → Int) (token : Token)
        (tokenActor : Actor) (acc : List Effect × List Effect) (s : Token),
        s.actor = some tokenActor →
        passBToken dist token tokenActor acc s = some acc) := by
  constructor
  · intro tA o post hmem
    simp [toAddToList, List.mem_filter] at hmem
  · intro dist token tA acc s h
    simp [passBToken, h]

/-- Witness for `c9_self_exclusion`: the moving actor `actA` is excluded from
a concrete `toAddTo` set containing it, and Pass B skips the moving token
`tokA` itself. -/
theorem c9_witness :
    some actA ∉ toAddToList actA "Effect.S" [some actA] ∧
    passBToken envS.dist tokA actA ([], []) tokA = some ([], []) :=
  ⟨(c9_self_exclusion.1) actA "Effect.S" [some actA],
   (c9_self_exclusion.2) envS.dist tokA actA ([], []) tokA rfl⟩

/-- C10: Null-actor guard — when the moved token has no associated actor, the
handler returns before the reconciliation body: it takes no proximity
snapshot and dispatches no mutation query. -/
theorem c10_null_actor_guard (env : Env) (seen : Bool) (token : Token)
    (updates : Updates) (userId : String) (h : token.actor = none) :
    (updateToken env seen token updates userId).proceeded = false ∧
    (updateToken env seen token updates userId).queries = [] := by
  by_cases h1 : env.localUserId ≠ userId
  · simp [updateToken, h1]
  · by_cases h2 : env.activeGM = false
    · by_cases h3 : seen = false <;> simp [updateToken, h1, h2, h3]
    · simp [updateToken, h1, h2, h]

/-- Witness for `c10_null_actor_guard` at the actorless token `tokNoActor`. -/
theorem c10_witness :
    tokNoActor.actor = none ∧
    ((updateToken envS false tokNoActor updX "u").proceeded = false ∧
      (updateToken envS false tokNoActor updX "u").queries = []) :=
  ⟨rfl, c10_null_actor_guard envS false tokNoActor updX "u" rfl⟩

/-- C1 counterexample: with geometry frozen (the pre- and post-move proximity
snapshots are the same empty set, and Pass B's scene holds only the mover),
two consecutive invocations of the handler each dispatch two mutation queries
— an empty-payload `deleteEffects` and an empty-payload `applyEffect` — so the
second invocation does not issue zero mutation requests. -/
theorem c1_counterexample :
    (runSeq envS false [⟨tokS, updX, "u"⟩, ⟨tokS, updX, "u"⟩]).2.map
        (·.queries) =
      [[Query.deleteEffects [], Query.applyEffect (effectDataOf effSrc) []],
       [Query.deleteEffects [], Query.applyEffect (effectDataOf effSrc) []]] ∧
    (runSeq envS false [⟨tokS, updX, "u"⟩, ⟨tokS, updX, "u"⟩]).2.map
        (fun r => r.queries.length) = [2, 2] :=
  ⟨rfl, rfl⟩

/-- C4 counterexample: with no active GM, a sequence whose first
movement-handler invocation is by a non-initiating participant surfaces zero
warnings on that first invocation, not exactly one. -/
theorem c4_counterexample :
    (runSeq envNoGM false [⟨tokS, updX, "other"⟩]).2.map (·.warnings) = [0] ∧
    envNoGM.activeGM = false ∧ envNoGM.localUserId = "u" :=
  ⟨rfl, rfl, rfl⟩

/-- C5 counterexample: in Pass B a zero-radius aura (`effZ`, radius some 0) is
not skipped — its classification consults the computed distance (distance 0
puts it in the addition list, distance 3 in the removal list), and a full
handler run over a scene with an overlapping zero-radius aura source
dispatches an `applyAuraEffects` addition request for it. -/
theorem c5_counterexample :
    effZ.system.distance = some 0 ∧
    passBToken envD0.dist tokA actA ([], []) tokZ = some ([], [effZ]) ∧
    passBToken envD3.dist tokA actA ([], []) tokZ = some ([effZ], []) ∧
    (updateToken envD0 false tokA updX "u").queries =
      [Query.applyAuraEffects "Actor.A" ["Effect.Z"]] :=
  ⟨rfl, rfl, rfl, rfl⟩

/-- C6 counterexample: an accepted update by the local initiating participant
that changes the token's x coordinate to 0 (a falsy value), with an active GM
present and the token's actor present, does not trigger reconciliation: the
handler returns before taking any snapshot and dispatches nothing. -/
theorem c6_counterexample :
    updX0.x = some 0 ∧ envS.localUserId = "u" ∧ envS.activeGM = true ∧
    tokS.actor = some actS ∧
    (updateToken envS false tokS updX0 "u").proceeded = false ∧
    (updateToken envS false tokS updX0 "u").queries = [] :=
  ⟨rfl, rfl, rfl, rfl, rfl, rfl⟩

/-- Guard evaluation: when every guard passes, the handler proceeds and runs
the reconciliation body. -/
theorem updateToken_main (env : Env) (seen : Bool) (token : Token)
    (updates : Updates) (userId : String) (tA : Actor)
    (h1 : env.localUserId = userId) (h2 : env.activeGM = true)
    (htok : token.actor = some tA)
    (h4 : (truthyNum updates.x || truthyNum updates.y ||
      truthyNum updates.elevation) = true) :
    updateToken env seen token updates userId =
      ⟨0, seen, true, (reconcile env token tA).1, (reconcile env token tA).2⟩ := by
  simp [updateToken, h1, h2, htok, h4]

/-- Guard evaluation: when some guard fails, the handler returns before the
reconciliation body, dispatching nothing. -/
theorem updateToken_early (env : Env) (seen : Bool) (token : Token)
    (updates : Updates) (userId : String)
    (h : ¬(env.localUserId = userId ∧ env.activeGM = true ∧
      token.actor ≠ none ∧
      (truthyNum updates.x || truthyNum updates.y ||
        truthyNum updates.elevation) = true)) :
    (updateToken env seen token updates userId).proceeded = false ∧
    (updateToken env seen token updates userId).queries = [] := by
  by_cases h1 : env.localUserId ≠ userId
  · simp [updateToken, h1]
  · push_neg at h1
    by_cases h2 : env.activeGM = false
    · by_cases h3 : seen = false <;> simp [updateToken, h1, h2, h3]
    · have h2t : env.activeGM = true := by
        revert h2; cases env.activeGM <;> simp
      rcases htok : token.actor with _ | tA
      · simp [updateToken, h1, h2, htok]
      · by_cases h4 : (truthyNum updates.x || truthyNum updates.y ||
          truthyNum updates.elevation) = false
        · simp [updateToken, h1, h2, htok, h4]
        · exfalso
          exact h ⟨h1, h2t, by simp [htok], by revert h4; cases h5 :
            (truthyNum updates.x || truthyNum updates.y ||
              truthyNum updates.elevation) <;> simp⟩

/-- C6 (amended): the handler proceeds to reconciliation exactly when the
initiating user is the local participant, an active GM is present, the token
has an actor, and the update carries a truthy (nonzero) `x`, `y`, or
`elevation` value; whenever it does not proceed, it dispatches no mutation
query. -/
theorem c6_trigger_amended (env : Env) (seen : Bool) (token : Token)
    (updates : Updates) (userId : String) :
    ((updateToken env seen token updates userId).proceeded = true ↔
      (env.localUserId = userId ∧ env.activeGM = true ∧ token.actor ≠ none ∧
        (truthyNum updates.x || truthyNum updates.y ||
          truthyNum updates.elevation) = true)) ∧
    ((updateToken env seen token updates userId).proceeded = false →
      (updateToken env seen token updates userId).queries = []) := by
  constructor
  · constructor
    · intro hp
      by_contra hc
      have := (updateToken_early env seen token updates userId hc).1
      rw [this] at hp
      exact Bool.false_ne_true hp
    · rintro ⟨h1, h2, h3, h4⟩
      rcases htok : token.actor with _ | tA
      · exact absurd htok h3
      · rw [updateToken_main env seen token updates userId tA h1 h2 htok h4]
  · intro hp
    by_cases hc : env.localUserId = userId ∧ env.activeGM = true ∧
      token.actor ≠ none ∧
      (truthyNum updates.x || truthyNum updates.y ||
        truthyNum updates.elevation) = true
    · obtain ⟨h1, h2, h3, h4⟩ := hc
      rcases htok : token.actor with _ | tA
      · exact absurd htok h3
      · rw [updateToken_main env seen token updates userId tA h1 h2 htok h4]
          at hp
        exact absurd hp (by simp)
    · exact (updateToken_early env seen token updates userId hc).2

/-- Witness for `c6_trigger_amended`: with all triggering conditions met the
handler proceeds, and at the falsy update `updX0` it dispatches nothing. -/
theorem c6_witness :
    (updateToken envS false tokS updX "u").proceeded = true ∧
    (updateToken envS false tokS updX0 "u").queries = [] :=
  ⟨(c6_trigger_amended envS false tokS updX "u").1.mpr
      ⟨rfl, rfl, by simp [tokS], rfl⟩,
   (c6_trigger_amended envS false tokS updX0 "u").2 rfl⟩

/-- Per source effect, Pass A's removal dispatches and its crash behavior do
not depend on the final-segment flag. -/
theorem passAEffect_final_indep
    (nearby : Token → Option Int → Int → String → List Token) (b b' : Bool)
    (token : Token) (tokenActor : Actor)
    (pre : String → Option (List (Option Actor))) (e : Effect) :
    (passAEffect nearby b token tokenActor pre e).1.filter isRemovalQuery =
      (passAEffect nearby b' token tokenActor pre e).1.filter isRemovalQuery ∧
    (passAEffect nearby b token tokenActor pre e).2 =
      (passAEffect nearby b' token tokenActor pre e).2 := by
  by_cases hT : truthyNum e.system.distance = false
  · simp [passAEffect, hT]
  · rcases hpr : pre e.uuid with _ | pr
    · simp [passAEffect, hT, hpr]
    · by_cases hd : none ∈ pr ∧ none ∉ rangeActors nearby token e
      · simp [passAEffect, hT, hpr, hd]
      · cases b <;> cases b' <;>
          simp [passAEffect, hT, hpr, hd, isRemovalQuery]

/-- Pass A's removal dispatches and crash behavior do not depend on the
final-segment flag. -/
theorem passA_final_indep
    (nearby : Token → Option Int → Int → String → List Token) (b b' : Bool)
    (token : Token) (tokenActor : Actor)
    (pre : String → Option (List (Option Actor))) :
    ∀ l : List Effect,
      (passA nearby b token tokenActor pre l).1.filter isRemovalQuery =
        (passA nearby b' token tokenActor pre l).1.filter isRemovalQuery ∧
      (passA nearby b token tokenActor pre l).2 =
        (passA nearby b' token tokenActor pre l).2 := by
  intro l
  induction l with
  | nil => exact ⟨rfl, rfl⟩
  | cons e rest ih =>
    obtain ⟨hq, hc⟩ :=
      passAEffect_final_indep nearby b b' token tokenActor pre e
    obtain ⟨ihq, ihc⟩ := ih
    simp only [passA]
    by_cases h2 : (passAEffect nearby b token tokenActor pre e).2 = true
    · have h2' : (passAEffect nearby b' token tokenActor pre e).2 = true :=
        hc ▸ h2
      simp [h2, h2', hq]
    · have h2f : (passAEffect nearby b token tokenActor pre e).2 = false := by
        revert h2; cases (passAEffect nearby b token tokenActor pre e).2 <;>
          simp
      have h2f' : (passAEffect nearby b' token tokenActor pre e).2 = false :=
        hc ▸ h2f
      simp [h2f, h2f', List.filter_append, hq, ihq, ihc]

/-- Pass B's removal batch does not depend on the final-segment flag. -/
theorem passBQueries_final_indep (u : String) (b b' : Bool)
    (p : List Effect × List Effect) :
    (passBQueries u b p).filter isRemovalQuery =
      (passBQueries u b' p).filter isRemovalQuery := by
  simp only [passBQueries, List.filter_append]
  congr 1
  split <;> split <;> simp [isRemovalQuery]

/-- With the final-segment flag down, every query a Pass A step dispatches is
a removal. -/
theorem passAEffect_false_removal
    (nearby : Token → Option Int → Int → String → List Token) (token : Token)
    (tokenActor : Actor) (pre : String → Option (List (Option Actor)))
    (e : Effect) :
    ∀ q ∈ (passAEffect nearby false token tokenActor pre e).1,
      isRemovalQuery q = true := by
  intro q hq
  by_cases hT : truthyNum e.system.distance = false
  · simp [passAEffect, hT] at hq
  · rcases hpr : pre e.uuid with _ | pr
    · simp [passAEffect, hT, hpr] at hq
    · by_cases hd : none ∈ pr ∧ none ∉ rangeActors nearby token e
      · simp [passAEffect, hT, hpr, hd] at hq
      · simp [passAEffect, hT, hpr, hd] at hq
        simp [hq, isRemovalQuery]

/-- With the final-segment flag down, every query Pass A dispatches is a
removal. -/
theorem passA_false_removal
    (nearby : Token → Option Int → Int → String → List Token) (token : Token)
    (tokenActor : Actor) (pre : String → Option (List (Option Actor))) :
    ∀ l : List Effect, ∀ q ∈ (passA nearby false token tokenActor pre l).1,
      isRemovalQuery q = true := by
  intro l
  induction l with
  | nil => simp [passA]
  | cons e rest ih =>
    intro q hq
    simp only [passA] at hq
    by_cases h2 : (passAEffect nearby false token tokenActor pre e).2 = true
    · simp [h2] at hq
      exact passAEffect_false_removal nearby token tokenActor pre e q hq
    · have h2f : (passAEffect nearby false token tokenActor pre e).2 = false :=
        by revert h2;
           cases (passAEffect nearby false token tokenActor pre e).2 <;> simp
      simp [h2f] at hq
      rcases hq with hq | hq
      · exact passAEffect_false_removal nearby token tokenActor pre e q hq
      · exact ih q hq

/-- With the final-segment flag down, every query Pass B dispatches is a
removal. -/
theorem passBQueries_false_removal (u : String)
    (p : List Effect × List Effect) :
    ∀ q ∈ passBQueries u false p, isRemovalQuery q = true := by
  intro q hq
  simp only [passBQueries] at hq
  rcases List.mem_append.mp hq with h | h
  · by_cases h1 : p.1.isEmpty
    · rw [if_pos h1] at h; simp at h
    · rw [if_neg h1] at h
      simp at h
      simp [h, isRemovalQuery]
  · simp at h

/-- C3: Segment gating — the removal queries an invocation dispatches are the
same whether or not the movement is the final path segment, and with the
final-segment flag down every dispatched query is a removal (so addition
queries are issued only on the final segment). -/
theorem c3_segment_gating (env : Env) (seen : Bool) (token : Token)
    (updates : Updates) (userId : String) :
    ((updateToken (setFinal env true) seen token updates userId).queries.filter
        isRemovalQuery =
      (updateToken (setFinal env false) seen token updates
        userId).queries.filter isRemovalQuery) ∧
    (env.finalMovementComplete = false →
      ∀ q ∈ (updateToken env seen token updates userId).queries,
        isRemovalQuery q = true) := by
  constructor
  · by_cases hc : env.localUserId = userId ∧ env.activeGM = true ∧
      token.actor ≠ none ∧
      (truthyNum updates.x || truthyNum updates.y ||
        truthyNum updates.elevation) = true
    · obtain ⟨h1, h2, h3, h4⟩ := hc
      rcases htok : token.actor with _ | tA
      · exact absurd htok h3
      · rw [updateToken_main (setFinal env true) seen token updates userId tA
          h1 h2 htok h4]
        rw [updateToken_main (setFinal env false) seen token updates userId tA
          h1 h2 htok h4]
        simp only [reconcile, setFinal]
        obtain ⟨hq, hc2⟩ := passA_final_indep env.nearbyPost true false token
          tA (preMoveRanges env.nearbyPre token
            (tA.appliedEffects.filter (fun e => e.type == "auras.aura")))
          (tA.appliedEffects.filter (fun e => e.type == "auras.aura"))
        by_cases hA2 : (passA env.nearbyPost true token tA
            (preMoveRanges env.nearbyPre token
              (tA.appliedEffects.filter (fun e => e.type == "auras.aura")))
            (tA.appliedEffects.filter (fun e => e.type == "auras.aura"))).2
              = true
        · have hA2' := hc2 ▸ hA2
          simp [hA2, hA2', hq]
        · have hA2f : (passA env.nearbyPost true token tA
              (preMoveRanges env.nearbyPre token
                (tA.appliedEffects.filter (fun e => e.type == "auras.aura")))
              (tA.appliedEffects.filter (fun e => e.type == "auras.aura"))).2
                = false := by
            revert hA2
            cases (passA env.nearbyPost true token tA
              (preMoveRanges env.nearbyPre token
                (tA.appliedEffects.filter (fun e => e.type == "auras.aura")))
              (tA.appliedEffects.filter (fun e => e.type == "auras.aura"))).2
              <;> simp
          have hA2f' := hc2 ▸ hA2f
          rcases hB : passBFold env.dist token tA env.sceneTokens ([], [])
            with _ | p
          · simp [hA2f, hA2f', hB, hq]
          · simp [hA2f, hA2f', hB, List.filter_append, hq,
              passBQueries_final_indep tA.uuid true false p]
    · rw [(updateToken_early (setFinal env true) seen token updates userId
        (by simpa [setFinal] using hc)).2]
      rw [(updateToken_early (setFinal env false) seen token updates userId
        (by simpa [setFinal] using hc)).2]
  · intro hfin q hq
    by_cases hc : env.localUserId = userId ∧ env.activeGM = true ∧
      token.actor ≠ none ∧
      (truthyNum updates.x || truthyNum updates.y ||
        truthyNum updates.elevation) = true
    · obtain ⟨h1, h2, h3, h4⟩ := hc
      rcases htok : token.actor with _ | tA
      · exact absurd htok h3
      · rw [updateToken_main env seen token updates userId tA h1 h2 htok h4]
          at hq
        simp only [reconcile, hfin] at hq
        by_cases hA2 : (passA env.nearbyPost false token tA
            (preMoveRanges env.nearbyPre token
              (tA.appliedEffects.filter (fun e => e.type == "auras.aura")))
            (tA.appliedEffects.filter (fun e => e.type == "auras.aura"))).2
              = true
        · simp only [hA2, if_true] at hq
          exact passA_false_removal env.nearbyPost token tA _ _ q hq
        · have hA2f : (passA env.nearbyPost false token tA
              (preMoveRanges env.nearbyPre token
                (tA.appliedEffects.filter (fun e => e.type == "auras.aura")))
              (tA.appliedEffects.filter (fun e => e.type == "auras.aura"))).2
                = false := by
            revert hA2
            cases (passA env.nearbyPost false token tA
              (preMoveRanges env.nearbyPre token
                (tA.appliedEffects.filter (fun e => e.type == "auras.aura")))
              (tA.appliedEffects.filter (fun e => e.type == "auras.aura"))).2
              <;> simp
          simp only [hA2f] at hq
          rcases hB : passBFold env.dist token tA env.sceneTokens ([], [])
            with _ | p <;> simp only [hB] at hq
          · simp at hq
            exact passA_false_removal env.nearbyPost token tA _ _ q hq
          · simp at hq
            rcases hq with h | h
            · exact passA_false_removal env.nearbyPost token tA _ _ q h
            · exact passBQueries_false_removal tA.uuid p q h
    · rw [(updateToken_early env seen token updates userId hc).2] at hq
      simp at hq

/-- Witness for `c3_segment_gating` at the concrete scene `envS`: the removal
queries agree across the final-segment flag, and with the flag down the
(sole, empty-payload) dispatched query is a removal. -/
theorem c3_witness :
    ((updateToken (setFinal envS true) false tokS updX "u").queries.filter
        isRemovalQuery =
      (updateToken (setFinal envS false) false tokS updX "u").queries.filter
        isRemovalQuery) ∧
    isRemovalQuery (Query.deleteEffects []) = true :=
  ⟨(c3_segment_gating envS false tokS updX "u").1,
   (c3_segment_gating (setFinal envS false) false tokS updX "u").2 rfl
     (Query.deleteEffects []) (by decide)⟩

/-- C4 (amended): with no active GM, invocations initiated by the local
participant surface the one-time warning — the first such invocation (with
the latch unset) surfaces exactly one warning and every other invocation
surfaces zero, per `specWarningPattern` — no invocation dispatches any
mutation query or proceeds to reconciliation, and the latch, once set, stays
set for the rest of the sequence. -/
theorem c4_no_authority_amended (env : Env) (h : env.activeGM = false) :
    ∀ (calls : List Call) (seen : Bool),
      ((runSeq env seen calls).2.map (·.warnings) =
        specWarningPattern env.localUserId seen calls) ∧
      (∀ r ∈ (runSeq env seen calls).2, r.queries = [] ∧
        r.proceeded = false) ∧
      ((runSeq env seen calls).1 =
        (seen || calls.any (fun c => c.userId == env.localUserId))) := by
  intro calls
  induction calls with
  | nil => intro seen; simp [runSeq, specWarningPattern]
  | cons c rest ih =>
    intro seen
    by_cases h1 : env.localUserId ≠ c.userId
    · have hbeq : (c.userId == env.localUserId) = false := by
        simp only [beq_eq_false_iff_ne, ne_eq]
        intro hh; exact h1 hh.symm
      have hr : updateToken env seen c.token c.updates c.userId =
          ⟨0, seen, false, [], false⟩ := by
        simp [updateToken, h1]
      obtain ⟨ih1, ih2, ih3⟩ := ih seen
      refine ⟨?_, ?_, ?_⟩
      · simp [runSeq, hr, specWarningPattern, hbeq, ih1]
      · intro r hr2
        simp [runSeq, hr] at hr2
        rcases hr2 with hr2 | hr2
        · simp [hr2]
        · exact ih2 r hr2
      · simp [runSeq, hr, ih3, hbeq]
    · push_neg at h1
      have hbeq : (c.userId == env.localUserId) = true := by
        simp [beq_iff_eq, h1.symm]
      by_cases h3 : seen = false
      · subst h3
        have hr : updateToken env false c.token c.updates c.userId =
            ⟨1, true, false, [], false⟩ := by
          simp [updateToken, h1, h]
        obtain ⟨ih1, ih2, ih3⟩ := ih true
        refine ⟨?_, ?_, ?_⟩
        · simp [runSeq, hr, specWarningPattern, hbeq, ih1]
        · intro r hr2
          simp [runSeq, hr] at hr2
          rcases hr2 with hr2 | hr2
          · simp [hr2]
          · exact ih2 r hr2
        · simp [runSeq, hr, ih3, hbeq]
      · have h3t : seen = true := by revert h3; cases seen <;> simp
        subst h3t
        have hr : updateToken env true c.token c.updates c.userId =
            ⟨0, true, false, [], false⟩ := by
          simp [updateToken, h1, h]
        obtain ⟨ih1, ih2, ih3⟩ := ih true
        refine ⟨?_, ?_, ?_⟩
        · simp [runSeq, hr, specWarningPattern, hbeq, ih1]
        · intro r hr2
          simp [runSeq, hr] at hr2
          rcases hr2 with hr2 | hr2
          · simp [hr2]
          · exact ih2 r hr2
        · simp [runSeq, hr, ih3, hbeq]

/-- Witness for `c4_no_authority_amended`: with no GM, a single invocation by
the local initiator surfaces exactly one warning. -/
theorem c4_witness :
    (runSeq envNoGM false [⟨tokS, updX, "u"⟩]).2.map (·.warnings) = [1] := by
  have := (c4_no_authority_amended envNoGM rfl [⟨tokS, updX, "u"⟩] false).1
  simpa [specWarningPattern, envNoGM, envS] using this

/-- An origin lookup succeeds exactly when the actor holds at least one
effect with that origin. -/
theorem findOriginEffect_isSome (act : Actor) (o : String) :
    (findOriginEffect act o).isSome = true ↔ 0 < countOrigin act o := by
  constructor
  · intro hs
    rcases Option.isSome_iff_exists.mp hs with ⟨e, he⟩
    have hmem := List.mem_of_find?_eq_some he
    have hp := List.find?_some he
    simp only [countOrigin, List.length_pos]
    intro hnil
    have : e ∈ act.effects.filter (fun e => e.origin == some o) :=
      List.mem_filter.mpr ⟨hmem, hp⟩
    rw [hnil] at this
    exact absurd this (List.not_mem_nil e)
  · intro hc
    rw [countOrigin, List.length_pos] at hc
    rcases List.exists_mem_of_ne_nil _ hc with ⟨e, he⟩
    obtain ⟨hmem, hp⟩ := List.mem_filter.mp he
    have : (act.effects.find? (fun e => e.origin == some o)).isSome = true := by
      rw [List.find?_isSome]
      exact ⟨e, hmem, hp⟩
    exact this

/-- Appending one effect changes an origin count by one exactly when the new
effect's origin matches. -/
theorem countOrigin_append (act : Actor) (e : Effect) (o : String) :
    countOrigin { act with effects := act.effects ++ [e] } o =
      countOrigin act o + (if e.origin == some o then 1 else 0) := by
  simp only [countOrigin, List.filter_append]
  split <;> simp [*]

/-- One step of the spec-modelled apply primitive neither changes a
positive origin count nor pushes a count past one. -/
theorem applyAura_step (act : Actor) (src : Effect) (o : String) :
    (0 < countOrigin act o →
      countOrigin (if (findOriginEffect act src.uuid).isSome then act
        else { act with effects := act.effects ++ [effectDataOf src] }) o =
      countOrigin act o) ∧
    (countOrigin act o ≤ 1 →
      countOrigin (if (findOriginEffect act src.uuid).isSome then act
        else { act with effects := act.effects ++ [effectDataOf src] }) o
        ≤ 1) := by
  by_cases hg : (findOriginEffect act src.uuid).isSome = true
  · simp [hg]
  · have hg' : (findOriginEffect act src.uuid).isSome = false := by
      revert hg; cases (findOriginEffect act src.uuid).isSome <;> simp
    have hcount0 : ¬ 0 < countOrigin act src.uuid := by
      intro hpos
      rw [← findOriginEffect_isSome act src.uuid] at hpos
      rw [hg'] at hpos
      exact Bool.false_ne_true hpos
    by_cases ho : src.uuid = o
    · subst ho
      have h0 : countOrigin act src.uuid = 0 := by omega
      constructor
      · intro hpos; omega
      · intro _
        rw [if_neg (by simp [hg']), countOrigin_append, h0]
        simp [effectDataOf]
    · have hne : (some src.uuid == some o) = false := by
        simp [ho]
      constructor
      · intro hc
        rw [if_neg (by simp [hg']), countOrigin_append]
        simp [effectDataOf, hne]
      · intro hc
        rw [if_neg (by simp [hg']), countOrigin_append]
        simpa [effectDataOf, hne] using hc

/-- The spec-modelled apply primitive over a whole batch: a positive origin
count is unchanged, and a count of at most one stays at most one. -/
theorem applyAura_batch (srcs : List Effect) : ∀ (act : Actor) (o : String),
    (0 < countOrigin act o →
      countOrigin (applyAuraEffectsPrimitive act srcs) o =
        countOrigin act o) ∧
    (countOrigin act o ≤ 1 →
      countOrigin (applyAuraEffectsPrimitive act srcs) o ≤ 1) := by
  induction srcs with
  | nil => intro act o; exact ⟨fun _ => rfl, fun hh => hh⟩
  | cons s rest ih =>
    intro act o
    have hstep := applyAura_step act s o
    have hfold : applyAuraEffectsPrimitive act (s :: rest) =
        applyAuraEffectsPrimitive
          (if (findOriginEffect act s.uuid).isSome then act
            else { act with effects := act.effects ++ [effectDataOf s] })
          rest := rfl
    constructor
    · intro hpos
      rw [hfold]
      rw [(ih _ o).1 (by rw [hstep.1 hpos]; exact hpos), hstep.1 hpos]
    · intro hle
      rw [hfold]
      exact (ih _ o).2 (hstep.2 hle)

/-- C2: Duplicate prevention — Pass A's `toAddTo` filter excludes every actor
already holding a derived effect whose origin matches the source effect, and
the spec-modelled `applyAuraEffects` primitive (used by Pass B's addition
batch) never creates a second derived effect for a (source-effect,
target-actor) pair: a positive matching-origin count is left unchanged, and
the at-most-one invariant is preserved. -/
theorem c2_duplicate_prevention :
    (∀ (tokenActor : Actor) (originUuid : String)
        (post : List (Option Actor)) (a : Option Actor) (act : Actor),
        a ∈ toAddToList tokenActor originUuid post → a = some act →
        findOriginEffect act originUuid = none) ∧
    (∀ (act : Actor) (srcs : List Effect) (originUuid : String),
        0 < countOrigin act originUuid →
        countOrigin (applyAuraEffectsPrimitive act srcs) originUuid =
          countOrigin act originUuid) ∧
    (∀ (act : Actor) (srcs : List Effect) (originUuid : String),
        countOrigin act originUuid ≤ 1 →
        countOrigin (applyAuraEffectsPrimitive act srcs) originUuid ≤ 1) := by
  refine ⟨?_, fun act srcs o => (applyAura_batch srcs act o).1,
    fun act srcs o => (applyAura_batch srcs act o).2⟩
  intro tA o post a act hmem ha
  subst ha
  obtain ⟨_, hp⟩ := List.mem_filter.mp hmem
  simp only [Bool.and_eq_true] at hp
  have := hp.2
  simp only [Option.isNone_iff_eq_none] at this
  exact this

/-- Witness for `c2_duplicate_prevention`: the effect-free actor `actA` kept
by a concrete `toAddTo` filter holds no matching-origin effect, and applying
the batch `[effSrc]` to `actD`, which already holds the derived copy, leaves
its matching-origin count at its value 1. -/
theorem c2_witness :
    findOriginEffect actA "Effect.S" = none ∧
    countOrigin (applyAuraEffectsPrimitive actD [effSrc]) "Effect.S" =
      countOrigin actD "Effect.S" ∧
    countOrigin actD "Effect.S" = 1 ∧
    countOrigin (applyAuraEffectsPrimitive actD [effSrc]) "Effect.S" ≤ 1 :=
  ⟨c2_duplicate_prevention.1 actS "Effect.S" [some actA] (some actA) actA
      (by decide) rfl,
   c2_duplicate_prevention.2.1 actD [effSrc] "Effect.S" (by decide),
   by decide,
   c2_duplicate_prevention.2.2 actD [effSrc] "Effect.S" (by decide)⟩

/-- C5 (amended): a falsy (zero or unset) aura radius is inert in Pass A only
— such an effect is skipped before the nearby-token query, contributing
nothing to the pre-move snapshots and no queries or crashes to Pass A.  Pass B
has no radius guard: a zero-radius aura still has its distance computed and is
classified by it — marked for removal exactly when the distance is positive
and otherwise (distance ≤ 0, i.e. overlap) marked for addition — and an
unset-radius aura is always marked for addition (JS `undefined <` is
false). -/
theorem c5_zero_radius_amended :
    (∀ (nearby : Token → Option Int → Int → String → List Token)
        (final : Bool) (token : Token) (tokenActor : Actor)
        (pre : String → Option (List (Option Actor))) (e : Effect),
        truthyNum e.system.distance = false →
        passAEffect nearby final token tokenActor pre e = ([], false)) ∧
    (∀ (nearby : Token → Option Int → Int → String → List Token)
        (token : Token) (e : Effect) (rest : List Effect) (k : String),
        truthyNum e.system.distance = false →
        preMoveRanges nearby token (e :: rest) k =
          preMoveRanges nearby token rest k) ∧
    (∀ (d : Int) (p : List Effect × List Effect) (e : Effect),
        e.system.distance = some 0 →
        classifyAura d p e =
          (if 0 < d then (p.1 ++ [e], p.2) else (p.1, p.2 ++ [e]))) ∧
    (∀ (d : Int) (p : List Effect × List Effect) (e : Effect),
        e.system.distance = none →
        classifyAura d p e = (p.1, p.2 ++ [e])) := by
  refine ⟨?_, ?_, ?_, ?_⟩
  · intro nearby final token tokenActor pre e h
    simp [passAEffect, h]
  · intro nearby token e rest k h
    rcases hx : preMoveRanges nearby token rest k with _ | v <;>
      simp [preMoveRanges, h, hx]
  · intro d p e h
    by_cases h0 : (0 : Int) < d <;> simp [classifyAura, ltJS, h, h0]
  · intro d p e h
    simp [classifyAura, ltJS, h]

/-- Witness for `c5_zero_radius_amended` at the zero-radius aura `effZ`: Pass
A skips it entirely, it contributes no pre-move snapshot, and Pass B's
classification removes it at distance 1 and adds it at distance 0. -/
theorem c5_witness :
    passAEffect (fun _ _ _ _ => []) true tokA actA (fun _ => none) effZ =
      ([], false) ∧
    preMoveRanges (fun _ _ _ _ => []) tokA [effZ] "Effect.Z" =
      preMoveRanges (fun _ _ _ _ => []) tokA [] "Effect.Z" ∧
    classifyAura 1 ([], []) effZ = (([] : List Effect) ++ [effZ], []) ∧
    classifyAura 0 ([], []) effZ = (([] : List Effect), [] ++ [effZ]) :=
  ⟨c5_zero_radius_amended.1 (fun _ _ _ _ => []) true tokA actA
      (fun _ => none) effZ rfl,
   c5_zero_radius_amended.2.1 (fun _ _ _ _ => []) tokA effZ [] "Effect.Z" rfl,
   by rw [c5_zero_radius_amended.2.2.1 1 ([], []) effZ rfl]; rfl,
   by rw [c5_zero_radius_amended.2.2.1 0 ([], []) effZ rfl]; rfl⟩

/-- A key absent from the (truthy-radius) effects list has no pre-move
snapshot. -/
theorem preMoveRanges_not_mem
    (nearby : Token → Option Int → Int → String → List Token)
    (token : Token) :
    ∀ (l : List Effect) (k : String), k ∉ l.map (·.uuid) →
      preMoveRanges nearby token l k = none := by
  intro l
  induction l with
  | nil => intro k _; rfl
  | cons e rest ih =>
    intro k hk
    simp only [List.map_cons, List.mem_cons, not_or] at hk
    have hne : (k == e.uuid) = false := by
      simp [hk.1]
    simp [preMoveRanges, ih k hk.2, hne]

/-- With pairwise-distinct source-effect uuids, the pre-move snapshot stored
for a truthy-radius effect is its own `rangeActors` query. -/
theorem preMoveRanges_lookup
    (nearby : Token → Option Int → Int → String → List Token)
    (token : Token) :
    ∀ (l : List Effect) (e : Effect), e ∈ l →
      truthyNum e.system.distance = true → (l.map (·.uuid)).Nodup →
      preMoveRanges nearby token l e.uuid =
        some (rangeActors nearby token e) := by
  intro l
  induction l with
  | nil => intro e he; exact absurd he (List.not_mem_nil e)
  | cons e0 rest ih =>
    intro e he hT hnd
    simp only [List.map_cons, List.nodup_cons] at hnd
    rcases List.mem_cons.mp he with he0 | heR
    · subst he0
      have hnone := preMoveRanges_not_mem nearby token rest e.uuid hnd.1
      simp [preMoveRanges, hnone, hT]
    · have hr := ih e heR hT hnd.2
      simp [preMoveRanges, hr]

/-- Filtering a list by non-membership in itself leaves nothing. -/
theorem filter_not_mem_self {α : Type} [DecidableEq α] (l : List α) :
    l.filter (fun a => !decide (a ∈ l)) = [] := by
  rw [List.filter_eq_nil_iff]
  intro a ha
  simp [ha]

/-- When every actor in the post-move snapshot is the mover or already holds
a matching-origin derived effect, Pass A's `toAddTo` set is empty. -/
theorem toAddToList_nil (tokenActor : Actor) (originUuid : String)
    (post : List (Option Actor))
    (hheld : ∀ a ∈ post, a = some tokenActor ∨
      ∃ act, a = some act ∧
        (findOriginEffect act originUuid).isSome = true) :
    toAddToList tokenActor originUuid post = [] := by
  rw [toAddToList, List.filter_eq_nil_iff]
  intro a ha
  rcases hheld a ha with h | ⟨act, rfl, hs⟩
  · subst h; simp
  · rcases hfind : findOriginEffect act originUuid with _ | v
    · rw [hfind] at hs
      exact absurd hs (by simp)
    · simp [hfind]

/-- Under unchanged geometry (the stored pre-move snapshot is the post-move
snapshot) and saturated derived effects, every query a Pass A step dispatches
has an empty payload. -/
theorem passAEffect_empty_payload
    (nearby : Token → Option Int → Int → String → List Token) (final : Bool)
    (token : Token) (tokenActor : Actor)
    (pre : String → Option (List (Option Actor))) (e : Effect)
    (hpre : truthyNum e.system.distance = true →
      ∀ v, pre e.uuid = some v → v = rangeActors nearby token e)
    (hheld : ∀ a ∈ rangeActors nearby token e, a = some tokenActor ∨
      ∃ act, a = some act ∧ (findOriginEffect act e.uuid).isSome = true) :
    ∀ q ∈ (passAEffect nearby final token tokenActor pre e).1,
      hasEmptyPassAPayload q = true := by
  intro q hq
  by_cases hT : truthyNum e.system.distance = false
  · simp [passAEffect, hT] at hq
  · have hT2 : truthyNum e.system.distance = true := by
      revert hT; cases truthyNum e.system.distance <;> simp
    rcases hpr : pre e.uuid with _ | pr
    · simp [passAEffect, hT, hpr] at hq
    · have hpr2 : pr = rangeActors nearby token e := hpre hT2 pr hpr
      subst hpr2
      have hdiff := filter_not_mem_self (rangeActors nearby token e)
      have hadd := toAddToList_nil tokenActor e.uuid
        (rangeActors nearby token e) hheld
      cases final
      · simp [passAEffect, hT, hpr, hdiff, hadd] at hq
        simp [hq, hasEmptyPassAPayload]
      · simp [passAEffect, hT, hpr, hdiff, hadd] at hq
        rcases hq with hq | hq <;> simp [hq, hasEmptyPassAPayload]

/-- Under unchanged geometry and saturated derived effects, every query Pass
A dispatches has an empty payload. -/
theorem passA_empty_payload
    (nearby : Token → Option Int → Int → String → List Token) (final : Bool)
    (token : Token) (tokenActor : Actor)
    (pre : String → Option (List (Option Actor))) :
    ∀ l : List Effect,
      (∀ e ∈ l, truthyNum e.system.distance = true →
        ∀ v, pre e.uuid = some v → v = rangeActors nearby token e) →
      (∀ e ∈ l, ∀ a ∈ rangeActors nearby token e, a = some tokenActor ∨
        ∃ act, a = some act ∧ (findOriginEffect act e.uuid).isSome = true) →
      ∀ q ∈ (passA nearby final token tokenActor pre l).1,
        hasEmptyPassAPayload q = true := by
  intro l
  induction l with
  | nil => intro _ _ q hq; simp [passA] at hq
  | cons e rest ih =>
    intro hpre hheld q hq
    simp only [passA] at hq
    have hhead := passAEffect_empty_payload nearby final token tokenActor pre
      e (hpre e (List.mem_cons_self e rest))
      (hheld e (List.mem_cons_self e rest))
    by_cases h2 : (passAEffect nearby final token tokenActor pre e).2 = true
    · simp only [h2, if_true] at hq
      exact hhead q hq
    · have h2f : (passAEffect nearby final token tokenActor pre e).2 = false
        := by revert h2;
              cases (passAEffect nearby final token tokenActor pre e).2 <;>
                simp
      simp only [h2f, Bool.false_eq_true, if_false] at hq
      rcases List.mem_append.mp hq with h | h
      · exact hhead q h
      · exact ih (fun e2 he2 => hpre e2 (List.mem_cons_of_mem e he2))
          (fun e2 he2 => hheld e2 (List.mem_cons_of_mem e he2)) q h

/-- Every Pass B batch query trivially has an empty Pass-A payload. -/
theorem passBQueries_empty_payload (u : String) (final : Bool)
    (p : List Effect × List Effect) :
    ∀ q ∈ passBQueries u final p, hasEmptyPassAPayload q = true := by
  intro q hq
  simp only [passBQueries] at hq
  rcases List.mem_append.mp hq with h | h
  · by_cases h1 : p.1.isEmpty
    · rw [if_pos h1] at h; simp at h
    · rw [if_neg h1] at h
      simp at h
      simp [h, hasEmptyPassAPayload]
  · by_cases h2 : p.2.isEmpty = false ∧ final = true
    · rw [if_pos h2] at h
      simp at h
      simp [h, hasEmptyPassAPayload]
    · rw [if_neg h2] at h; simp at h

/-- The queries an invocation dispatches never depend on the `seenWarning`
latch. -/
theorem updateToken_queries_seen_irrel (env : Env) (token : Token)
    (updates : Updates) (userId : String) (s s2 : Bool) :
    (updateToken env s token updates userId).queries =
      (updateToken env s2 token updates userId).queries := by
  by_cases h1 : env.localUserId ≠ userId
  · simp [updateToken, h1]
  · by_cases h2 : env.activeGM = false
    · by_cases h3 : s = false <;> by_cases h4 : s2 = false <;>
        simp [updateToken, h1, h2, h3, h4]
    · rcases htok : token.actor with _ | tA
      · simp [updateToken, h1, h2, htok]
      · by_cases h4 : (truthyNum updates.x || truthyNum updates.y ||
          truthyNum updates.elevation) = false <;>
          simp [updateToken, h1, h2, htok, h4]

/-- C1 (amended): with the geometry unchanged across the move (the pre- and
post-move nearby queries agree), distinct source-aura uuids, and every
post-range actor other than the mover already holding the matching derived
effect (the steady state the first invocation leaves behind), an immediately
repeated invocation dispatches exactly the same mutation queries as the first
— not zero — and every query it dispatches carries an empty Pass-A payload:
its `deleteEffects` queries name no effects and its `applyEffect` queries name
no actors, while Pass B merely re-issues its batches unchanged. -/
theorem c1_idempotence_amended (env : Env) (seen : Bool) (token : Token)
    (updates : Updates) (userId : String)
    (hgeom : env.nearbyPre = env.nearbyPost)
    (hN : ∀ tA : Actor, token.actor = some tA →
      ((tA.appliedEffects.filter (fun e => e.type == "auras.aura")).map
        (·.uuid)).Nodup)
    (hheld : ∀ tA : Actor, token.actor = some tA →
      ∀ (e : Effect), ∀ a ∈ rangeActors env.nearbyPost token e,
        a = some tA ∨ ∃ act, a = some act ∧
          (findOriginEffect act e.uuid).isSome = true) :
    ((updateToken env
        (updateToken env seen token updates userId).seenWarning token updates
        userId).queries = (updateToken env seen token updates userId).queries)
    ∧ (∀ q ∈ (updateToken env seen token updates userId).queries,
        hasEmptyPassAPayload q = true) := by
  constructor
  · exact updateToken_queries_seen_irrel env token updates userId _ seen
  · intro q hq
    by_cases hc : env.localUserId = userId ∧ env.activeGM = true ∧
      token.actor ≠ none ∧
      (truthyNum updates.x || truthyNum updates.y ||
        truthyNum updates.elevation) = true
    · obtain ⟨h1, h2, h3, h4⟩ := hc
      rcases htok : token.actor with _ | tA
      · exact absurd htok h3
      · rw [updateToken_main env seen token updates userId tA h1 h2 htok h4]
          at hq
        simp only [reconcile] at hq
        have hpre : ∀ e ∈ tA.appliedEffects.filter
            (fun e => e.type == "auras.aura"),
            truthyNum e.system.distance = true →
            ∀ v, preMoveRanges env.nearbyPre token
              (tA.appliedEffects.filter (fun e => e.type == "auras.aura"))
              e.uuid = some v → v = rangeActors env.nearbyPost token e := by
          intro e he hT v hv
          rw [preMoveRanges_lookup env.nearbyPre token _ e he hT
            (hN tA htok)] at hv
          rw [hgeom] at hv
          exact (Option.some.injEq _ _).mp hv.symm
        have hheld2 : ∀ e ∈ tA.appliedEffects.filter
            (fun e => e.type == "auras.aura"),
            ∀ a ∈ rangeActors env.nearbyPost token e, a = some tA ∨
            ∃ act, a = some act ∧
              (findOriginEffect act e.uuid).isSome = true :=
          fun e _ => hheld tA htok e
        have hA := passA_empty_payload env.nearbyPost
          env.finalMovementComplete token tA
          (preMoveRanges env.nearbyPre token
            (tA.appliedEffects.filter (fun e => e.type == "auras.aura")))
          (tA.appliedEffects.filter (fun e => e.type == "auras.aura"))
          hpre hheld2
        by_cases hA2 : (passA env.nearbyPost env.finalMovementComplete token
            tA (preMoveRanges env.nearbyPre token
              (tA.appliedEffects.filter (fun e => e.type == "auras.aura")))
            (tA.appliedEffects.filter (fun e => e.type == "auras.aura"))).2
              = true
        · simp only [hA2, if_true] at hq
          exact hA q hq
        · have hA2f : (passA env.nearbyPost env.finalMovementComplete token
              tA (preMoveRanges env.nearbyPre token
                (tA.appliedEffects.filter (fun e => e.type == "auras.aura")))
              (tA.appliedEffects.filter (fun e => e.type == "auras.aura"))).2
                = false := by
            revert hA2
            cases (passA env.nearbyPost env.finalMovementComplete token
              tA (preMoveRanges env.nearbyPre token
                (tA.appliedEffects.filter (fun e => e.type == "auras.aura")))
              (tA.appliedEffects.filter (fun e => e.type == "auras.aura"))).2
              <;> simp
          simp only [hA2f, Bool.false_eq_true, if_false] at hq
          rcases hB : passBFold env.dist token tA env.sceneTokens ([], [])
            with _ | p <;> simp only [hB] at hq
          · exact hA q (by simpa using hq)
          · simp at hq
            rcases hq with h | h
            · exact hA q h
            · exact passBQueries_empty_payload tA.uuid
                env.finalMovementComplete p q h
    · rw [(updateToken_early env seen token updates userId hc).2] at hq
      simp at hq

/-- Witness for `c1_idempotence_amended` in the concrete scene `envS`: the
repeated invocation issues exactly the first invocation's queries, and the
concrete empty-payload `deleteEffects` it dispatches is certified empty. -/
theorem c1_witness :
    ((updateToken envS
        (updateToken envS false tokS updX "u").seenWarning tokS updX
        "u").queries = (updateToken envS false tokS updX "u").queries) ∧
    hasEmptyPassAPayload (Query.deleteEffects []) = true :=
  ⟨(c1_idempotence_amended envS false tokS updX "u" rfl
      (by intro tA h; simp [tokS] at h; subst h; decide)
      (by intro tA h e a ha; simp [rangeActors, jsSet, envS] at ha)).1,
   (c1_idempotence_amended envS false tokS updX "u" rfl
      (by intro tA h; simp [tokS] at h; subst h; decide)
      (by intro tA h e a ha; simp [rangeActors, jsSet, envS] at ha)).2
     (Query.deleteEffects []) (by decide)⟩

end Auras
